import Mathlib

/-!
Verification of the `e3-runner-python` entry point (`e3_runner/runner.py`)
and of the directory-based task-queue design specified for it.

The first part of this file is a shallow embedding of the source file
`runner.py`: the process environment is a finite map of variables plus a
home directory, and `main` is modelled as a function producing an outcome
together with a trace of observable effects (prints, sleeps, and — in the
effect vocabulary, so that their absence is expressible — filesystem
operations and subprocess spawns).  The second part models, from the
specification's words, the designed task store, claimer and memoization
index that are absent from the source tree.
-/

namespace E3

/-- The process environment: variables (as an association list, first
match wins, matching `os.environ`) and the user's home directory
(`Path.home()`). -/
structure OsEnv where
  vars : List (String × String)
  home : String

/-- `os.environ.get(name)`. -/
def envGet (env : OsEnv) (name : String) : Option String :=
  env.vars.lookup name

/-- `runner.py` line 14:
`e3_repo = os.environ.get("E3_REPO", str(Path.home() / ".e3"))`. -/
def e3RepoOf (env : OsEnv) : String :=
  (envGet env "E3_REPO").getD (env.home ++ "/.e3")

/-- `runner.py` line 15: `queue_dir = Path(e3_repo) / "queue" / "python"`,
as the rendered POSIX path string. -/
def queueDirOf (env : OsEnv) : String :=
  e3RepoOf env ++ "/queue/python"

/-- The four status lines `main` prints before entering its loop
(`runner.py` lines 17-19 and 29). -/
def statusLines (env : OsEnv) : List String :=
  ["E3 Python Runner starting...",
   "Repository: " ++ e3RepoOf env,
   "Queue: " ++ queueDirOf env,
   "Watching for tasks..."]

/-- The message printed by the `KeyboardInterrupt` handler
(`runner.py` line 38). -/
def shutdownMsg : String := "\nShutting down..."

/-- Observable effects of the runner process.  The filesystem and
subprocess constructors are part of the vocabulary so that theorems can
state that `main` never performs them. -/
inductive Effect where
  | print (line : String)
  | sleep (seconds : Nat)
  | fsCreate (path : String)
  | fsRead (path : String)
  | fsWrite (path : String)
  | fsDelete (path : String)
  | fsRename (src dst : String)
  | spawn (cmd : String)
deriving DecidableEq, Repr

/-- Whether an effect touches the filesystem. -/
def Effect.isFsOp : Effect → Bool
  | .fsCreate _ => true
  | .fsRead _ => true
  | .fsWrite _ => true
  | .fsDelete _ => true
  | .fsRename _ _ => true
  | _ => false

/-- Whether an effect is part of task-queue logic: any filesystem
operation (claiming, memo lookup, result recording) or subprocess spawn
(task execution). -/
def Effect.isQueueLogic : Effect → Bool
  | .spawn _ => true
  | e => e.isFsOp

/-- Whether an effect writes to standard output or sleeps — the only
kinds of effect the stub runner actually performs. -/
def Effect.isPrintOrSleep : Effect → Bool
  | .print _ => true
  | .sleep _ => true
  | _ => false

/-- Outcome of observing the process for finitely many loop iterations. -/
inductive RunOutcome where
  | running
  | exited (code : Nat)
  | returnedNormally
deriving DecidableEq, Repr

/-- The `while True: time.sleep(1)` loop of `runner.py` lines 34-36,
observed for `fuel` iterations.  `interrupt = some i` means a
`KeyboardInterrupt` is delivered after `i` completed sleeps, upon which
the handler prints the shutdown message and calls `sys.exit(0)`
(lines 37-39); `interrupt = none` means no interrupt is delivered. -/
def loopRun : Option Nat → Nat → RunOutcome × List Effect
  | _, 0 => (.running, [])
  | some 0, _ + 1 => (.exited 0, [Effect.print shutdownMsg])
  | some (i + 1), fuel + 1 =>
      let r := loopRun (some i) fuel
      (r.1, Effect.sleep 1 :: r.2)
  | none, fuel + 1 =>
      let r := loopRun none fuel
      (r.1, Effect.sleep 1 :: r.2)

/-- `main` of `runner.py`: print the status lines, then run the sleep
loop until an interrupt (if any) arrives. -/
def mainRun (env : OsEnv) (interrupt : Option Nat) (fuel : Nat) :
    RunOutcome × List Effect :=
  let r := loopRun interrupt fuel
  (r.1, (statusLines env).map Effect.print ++ r.2)

/-- The command-line entry (`if __name__ == "__main__": main()`): the
argument vector is never inspected — there is no subcommand dispatch. -/
def cliRun (_argv : List String) (env : OsEnv) (interrupt : Option Nat)
    (fuel : Nat) : RunOutcome × List Effect :=
  mainRun env interrupt fuel

/-! ### The designed task store (modelled from the spec)

The source tree contains only the placeholder entry point; the task
store, claimer and memoization index exist only in the specification.
The definitions below are therefore modelled from the spec's words. -/

/-- Modelled from the spec: task states (spec §3 Data Model) — the store
that realises them is missing from the source tree. -/
inductive TaskState where
  | pending
  | claimed
  | running
  | completed
  | failed
deriving DecidableEq, Repr

/-- Position of a state along the lifecycle
`pending → claimed → running → {completed|failed}` (spec §3). -/
def rank : TaskState → Nat
  | .pending => 0
  | .claimed => 1
  | .running => 2
  | .completed => 3
  | .failed => 3

/-- Modelled from the spec: a stored task's mutable part — its state and
its owner, the latter set only while `claimed`/`running` (spec §3). -/
structure TaskRecord where
  state : TaskState
  owner : Option String
deriving DecidableEq, Repr

/-- Modelled from the spec: the Task Store's durable backing, as a map
from task id to record (spec §4.1). -/
def Store : Type := String → Option TaskRecord

/-- The state the store currently records for a task id. -/
def stateOf (s : Store) (id : String) : Option TaskState :=
  (s id).map TaskRecord.state

/-- Owner field appropriate for a target state: kept only while
`claimed`/`running` (spec §3). -/
def ownerKept (toS : TaskState) (owner : Option String) : Option String :=
  if toS = TaskState.claimed ∨ toS = TaskState.running then owner else none

/-- Modelled from the spec: `transition(task_id, from_state, to_state,
owner) -> bool` — atomic compare-and-move; returns false (not an error)
if `from_state` no longer matches; never partially applies (spec §4.1). -/
def transition (s : Store) (id : String) (fromS toS : TaskState)
    (owner : Option String) : Bool × Store :=
  match s id with
  | none => (false, s)
  | some r =>
      if r.state = fromS then
        (true, fun x => if x = id then
            some { state := toS, owner := ownerKept toS owner }
          else s x)
      else (false, s)

/-- Modelled from the spec: `submit(definition, parent_id) -> task_id`
writes a new task in `pending`; task ids are unique, so an id already
present is never overwritten (spec §3, §4.1). -/
def submitTask (s : Store) (id : String) : Bool × Store :=
  match s id with
  | some _ => (false, s)
  | none =>
      (true, fun x => if x = id then
          some { state := TaskState.pending, owner := none }
        else s x)

/-- Modelled from the spec: the operations of the system that mutate a
task's state — submission, claiming (spec §4.2), the `running` heartbeat,
the recorder's terminal transitions (spec §4.5), and stale-claim rollback
(spec §4.2). -/
inductive StoreOp where
  | submitNew (id : String)
  | claim (id worker : String)
  | startRunning (id worker : String)
  | recordCompleted (id : String)
  | recordFailed (id : String)
  | staleRollback (id : String)
deriving DecidableEq, Repr

/-- Each operation applied via the store's atomic primitives. -/
def applyOp (op : StoreOp) (s : Store) : Bool × Store :=
  match op with
  | .submitNew id => submitTask s id
  | .claim id w => transition s id .pending .claimed (some w)
  | .startRunning id w => transition s id .claimed .running (some w)
  | .recordCompleted id => transition s id .running .completed none
  | .recordFailed id => transition s id .running .failed none
  | .staleRollback id => transition s id .claimed .pending none

/-- The state changes the operations can effect: creation into `pending`,
the forward lifecycle edges, and the stale-claim rollback
`claimed → pending`. -/
def edgeAllowed : Option TaskState → Option TaskState → Bool
  | none, some .pending => true
  | some .pending, some .claimed => true
  | some .claimed, some .running => true
  | some .running, some .completed => true
  | some .running, some .failed => true
  | some .claimed, some .pending => true
  | _, _ => false

/-! ### The designed memoization index (modelled from the spec) -/

/-- Modelled from the spec: a task outcome, `success` or `failure`
(spec §3). -/
inductive TaskOutcome where
  | success
  | failure
deriving DecidableEq, Repr

/-- Modelled from the spec: a Result — task id, outcome, output payload,
spawned child task ids (spec §3). -/
structure TaskResult where
  taskId : String
  outcome : TaskOutcome
  output : String
  children : List String
deriving DecidableEq, Repr

/-- Modelled from the spec: the Memoization Index's durable backing,
mapping fingerprints to results (spec §4.3). -/
def MemoIndex : Type := String → Option TaskResult

/-- Modelled from the spec: `record(fingerprint, result)` — called only
for successful outcomes (spec §4.3). -/
def memoRecord (m : MemoIndex) (fp : String) (r : TaskResult) : MemoIndex :=
  fun x => if x = fp then some r else m x

/-- Modelled from the spec: `lookup(fingerprint) -> Optional[Result]`
(spec §4.3). -/
def memoLookup (m : MemoIndex) (fp : String) : Option TaskResult :=
  m fp

/-! ### The designed on-disk layout (modelled from the spec) -/

/-- Modelled from the spec: `root/pending/<task_id>` (spec §6). -/
def pendingPath (root id : String) : String := root ++ "/pending/" ++ id

/-- Modelled from the spec: `root/claimed/<task_id>` (spec §6). -/
def claimedPath (root id : String) : String := root ++ "/claimed/" ++ id

/-- Modelled from the spec: `root/completed/<task_id>` (spec §6). -/
def completedPath (root id : String) : String := root ++ "/completed/" ++ id

/-- Modelled from the spec: `root/failed/<task_id>` (spec §6). -/
def failedPath (root id : String) : String := root ++ "/failed/" ++ id

/-- Modelled from the spec: `root/memo/<fingerprint>` (spec §6). -/
def memoPath (root fp : String) : String := root ++ "/memo/" ++ fp

/-! ### The designed CLI exit behaviour (modelled from the spec) -/

/-- Modelled from the spec: the result of store initialization at
startup — either a usable store or `StoreUnavailable` (spec §7). -/
inductive StoreInit where
  | ok
  | storeUnavailable (detail : String)
deriving DecidableEq, Repr

/-- Modelled from the spec: the designed worker's process exit code —
non-zero (1) on unrecoverable store initialization failure, 0 when it
runs and later receives the graceful shutdown signal (spec §6, §7). -/
def designedRunnerExit : StoreInit → Nat
  | .storeUnavailable _ => 1
  | .ok => 0

/-! ### Concrete example inputs, shared by witnesses and counterexamples -/

/-- An environment with no variables set and home `/home/user`. -/
def envEx : OsEnv := { vars := [], home := "/home/user" }

/-- An environment in which only `REPO_ROOT` is set. -/
def envRepoRootEx : OsEnv :=
  { vars := [("REPO_ROOT", "/custom/root")], home := "/home/user" }

/-- An environment in which `E3_REPO` is set to `/srv/e3`. -/
def envE3RepoEx : OsEnv :=
  { vars := [("E3_REPO", "/srv/e3")], home := "/home/user" }

/-- A store holding the single task `t1`, pending. -/
def storePendingEx : Store :=
  fun x => if x = "t1" then some { state := TaskState.pending, owner := none }
           else none

/-- A store holding the single task `t1`, claimed by worker `w1`. -/
def storeClaimedEx : Store :=
  fun x => if x = "t1" then
             some { state := TaskState.claimed, owner := some "w1" }
           else none

/-- An empty memoization index. -/
def memoEmptyEx : MemoIndex := fun _ => none

/-- A successful example result. -/
def resultEx : TaskResult :=
  { taskId := "t1", outcome := TaskOutcome.success, output := "ok",
    children := [] }

/-! ### Lemmas about the loop and trace of `main` -/

theorem loopRun_none_eq (fuel : Nat) :
    loopRun none fuel = (RunOutcome.running, List.replicate fuel (Effect.sleep 1)) := by
  induction fuel with
  | zero => rfl
  | succ n ih => simp [loopRun, ih, List.replicate_succ]

theorem loopRun_some_eq (i fuel : Nat) :
    loopRun (some i) fuel =
      if i < fuel then
        (RunOutcome.exited 0,
         List.replicate i (Effect.sleep 1) ++ [Effect.print shutdownMsg])
      else (RunOutcome.running, List.replicate fuel (Effect.sleep 1)) := by
  induction fuel generalizing i with
  | zero => simp [loopRun]
  | succ n ih =>
    cases i with
    | zero => simp [loopRun]
    | succ j =>
      have hstep : loopRun (some (j + 1)) (n + 1) =
          ((loopRun (some j) n).1, Effect.sleep 1 :: (loopRun (some j) n).2) := rfl
      rw [hstep, ih j]
      by_cases h : j < n
      · have h2 : j + 1 < n + 1 := by omega
        simp [h, h2, List.replicate_succ]
      · have h2 : ¬ (j + 1 < n + 1) := by omega
        simp [h, h2, List.replicate_succ]

theorem loopRun_mem (intr : Option Nat) (fuel : Nat) :
    ∀ e ∈ (loopRun intr fuel).2,
      e = Effect.sleep 1 ∨ e = Effect.print shutdownMsg := by
  cases intr with
  | none =>
    rw [loopRun_none_eq]
    intro e he
    exact Or.inl (List.eq_of_mem_replicate he)
  | some i =>
    rw [loopRun_some_eq]
    by_cases h : i < fuel
    · simp only [if_pos h]
      intro e he
      rcases List.mem_append.mp he with h1 | h2
      · exact Or.inl (List.eq_of_mem_replicate h1)
      · right; simpa using h2
    · simp only [if_neg h]
      intro e he
      exact Or.inl (List.eq_of_mem_replicate he)

theorem mainRun_snd (env : OsEnv) (intr : Option Nat) (fuel : Nat) :
    (mainRun env intr fuel).2 =
      (statusLines env).map Effect.print ++ (loopRun intr fuel).2 := rfl

/-! ### Lemmas about the modelled store primitives -/

theorem transition_eq_of_not_match (s : Store) (id : String)
    (f t : TaskState) (o : Option String) (h : stateOf s id ≠ some f) :
    transition s id f t o = (false, s) := by
  unfold transition
  cases hs : s id with
  | none => rfl
  | some r =>
    have hr : ¬ r.state = f := by
      intro he
      exact h (by simp [stateOf, hs, he])
    simp [hr]

theorem transition_fst_of_match (s : Store) (id : String)
    (f t : TaskState) (o : Option String) (h : stateOf s id = some f) :
    (transition s id f t o).1 = true := by
  unfold stateOf at h
  cases hs : s id with
  | none => rw [hs] at h; simp at h
  | some r =>
    rw [hs] at h
    have hr : r.state = f := by simpa using h
    unfold transition
    rw [hs]
    simp [hr]

theorem transition_snd_self (s : Store) (id : String)
    (f t : TaskState) (o : Option String)
    (h : (transition s id f t o).1 = true) :
    stateOf (transition s id f t o).2 id = some t := by
  unfold transition at h ⊢
  cases hs : s id with
  | none => rw [hs] at h; simp at h
  | some r =>
    rw [hs] at h
    by_cases hr : r.state = f
    · simp [hr, stateOf]
    · simp [hr] at h

theorem transition_frame (s : Store) (id : String)
    (f t : TaskState) (o : Option String) (x : String) (hx : x ≠ id) :
    (transition s id f t o).2 x = s x := by
  unfold transition
  cases hs : s id with
  | none => rfl
  | some r =>
    by_cases hr : r.state = f
    · simp [hr, hx]
    · simp [hr]

theorem transition_changes (s : Store) (id : String)
    (f t : TaskState) (o : Option String) (x : String)
    (h : stateOf (transition s id f t o).2 x ≠ stateOf s x) :
    x = id ∧ stateOf s x = some f ∧
      stateOf (transition s id f t o).2 x = some t := by
  by_cases hx : x = id
  · subst hx
    by_cases hm : stateOf s x = some f
    · exact ⟨rfl, hm,
        transition_snd_self s x f t o (transition_fst_of_match s x f t o hm)⟩
    · rw [transition_eq_of_not_match s x f t o hm] at h
      exact absurd rfl h
  · rw [show stateOf (transition s id f t o).2 x = stateOf s x from by
      unfold stateOf; rw [transition_frame s id f t o x hx]] at h
    exact absurd rfl h

theorem submitTask_frame (s : Store) (id x : String) (hx : x ≠ id) :
    (submitTask s id).2 x = s x := by
  unfold submitTask
  cases hs : s id with
  | some r => rfl
  | none => simp [hx]

theorem submitTask_changes (s : Store) (id x : String)
    (h : stateOf (submitTask s id).2 x ≠ stateOf s x) :
    x = id ∧ stateOf s x = none ∧
      stateOf (submitTask s id).2 x = some TaskState.pending := by
  by_cases hx : x = id
  · subst hx
    unfold submitTask at h ⊢
    cases hs : s x with
    | some r => rw [hs] at h; exact absurd rfl h
    | none =>
      refine ⟨rfl, by simp [stateOf, hs], ?_⟩
      simp [stateOf]
  · rw [show stateOf (submitTask s id).2 x = stateOf s x from by
      unfold stateOf; rw [submitTask_frame s id x hx]] at h
    exact absurd rfl h

/-! ### Claim theorems -/

/-- C1: For every environment, `main` prints its status lines (startup
banner, repository path, queue path, `Watching for tasks...`) and then
idles in a sleep loop, performing no task-queue logic — no claiming,
execution, memoization or result recording (no filesystem operation or
subprocess spawn at all). -/
theorem c1_main_prints_status_then_idles (env : OsEnv) (intr : Option Nat)
    (fuel : Nat) :
    (mainRun env intr fuel).2.take 4 = (statusLines env).map Effect.print ∧
    statusLines env =
      ["E3 Python Runner starting...",
       "Repository: " ++ e3RepoOf env,
       "Queue: " ++ queueDirOf env,
       "Watching for tasks..."] ∧
    ((mainRun env intr fuel).2.drop 4).all
      (fun e => e == Effect.sleep 1 || e == Effect.print shutdownMsg) = true ∧
    (mainRun env intr fuel).2.all (fun e => !(e.isQueueLogic)) = true := by
  refine ⟨rfl, rfl, ?_, ?_⟩
  · have hdrop : (mainRun env intr fuel).2.drop 4 = (loopRun intr fuel).2 := rfl
    rw [hdrop, List.all_eq_true]
    intro e he
    rcases loopRun_mem intr fuel e he with rfl | rfl
    · decide
    · decide
  · rw [List.all_eq_true]
    intro e he
    rw [mainRun_snd] at he
    rcases List.mem_append.mp he with h1 | h2
    · rcases List.mem_map.mp h1 with ⟨sline, _, rfl⟩
      rfl
    · rcases loopRun_mem intr fuel e h2 with rfl | rfl
      · rfl
      · rfl

/-- Witness for C1 at a concrete environment and run length. -/
theorem c1_witness :
    (mainRun envEx none 2).2.take 4 = (statusLines envEx).map Effect.print :=
  (c1_main_prints_status_then_idles envEx none 2).1

/-- C9: Once `main` has printed its status lines it never returns
normally: without an interrupt every observed step is a one-second sleep
and the loop re-enters, and the only exit is a `KeyboardInterrupt`, which
prints the shutdown message and exits with code 0. -/
theorem c9_loop_never_returns (env : OsEnv) (i fuel : Nat) :
    (mainRun env none fuel).1 = RunOutcome.running ∧
    (mainRun env none fuel).2 =
      (statusLines env).map Effect.print ++
        List.replicate fuel (Effect.sleep 1) ∧
    (mainRun env (some i) fuel).1 =
      (if i < fuel then RunOutcome.exited 0 else RunOutcome.running) ∧
    (mainRun env (some i) fuel).2 =
      (statusLines env).map Effect.print ++
        (List.replicate (min i fuel) (Effect.sleep 1) ++
          (if i < fuel then [Effect.print shutdownMsg] else [])) ∧
    (∀ intr : Option Nat,
      (mainRun env intr fuel).1 ≠ RunOutcome.returnedNormally) := by
  refine ⟨?_, ?_, ?_, ?_, ?_⟩
  · show (loopRun none fuel).1 = _
    rw [loopRun_none_eq]
  · rw [mainRun_snd, loopRun_none_eq]
  · show (loopRun (some i) fuel).1 = _
    rw [loopRun_some_eq]
    by_cases h : i < fuel <;> simp [h]
  · rw [mainRun_snd, loopRun_some_eq]
    by_cases h : i < fuel
    · have hmin : min i fuel = i := Nat.min_eq_left (Nat.le_of_lt h)
      simp [h, hmin]
    · have hmin : min i fuel = fuel := Nat.min_eq_right (by omega)
      simp [h, hmin]
  · intro intr
    cases intr with
    | none =>
      show (loopRun none fuel).1 ≠ _
      rw [loopRun_none_eq]
      simp
    | some j =>
      show (loopRun (some j) fuel).1 ≠ _
      rw [loopRun_some_eq]
      by_cases h : j < fuel <;> simp [h]

/-- Witness for C9 at a concrete environment and run length. -/
theorem c9_witness :
    (mainRun envEx (some 2) 5).1 =
      (if 2 < 5 then RunOutcome.exited 0 else RunOutcome.running) :=
  (c9_loop_never_returns envEx 2 5).2.2.1

/-- C10: `main` computes the queue directory path (and prints it), but
performs no filesystem operation: every effect in its trace is a print
or a sleep. -/
theorem c10_frame_no_fs (env : OsEnv) (intr : Option Nat) (fuel : Nat) :
    Effect.print ("Queue: " ++ queueDirOf env) ∈ (mainRun env intr fuel).2 ∧
    (mainRun env intr fuel).2.all Effect.isPrintOrSleep = true ∧
    (mainRun env intr fuel).2.all (fun e => !(e.isFsOp)) = true := by
  refine ⟨?_, ?_, ?_⟩
  · rw [mainRun_snd]
    refine List.mem_append.mpr (Or.inl ?_)
    exact List.mem_map.mpr ⟨"Queue: " ++ queueDirOf env,
      by simp [statusLines], rfl⟩
  · rw [List.all_eq_true]
    intro e he
    rw [mainRun_snd] at he
    rcases List.mem_append.mp he with h1 | h2
    · rcases List.mem_map.mp h1 with ⟨sline, _, rfl⟩
      rfl
    · rcases loopRun_mem intr fuel e h2 with rfl | rfl
      · rfl
      · rfl
  · rw [List.all_eq_true]
    intro e he
    rw [mainRun_snd] at he
    rcases List.mem_append.mp he with h1 | h2
    · rcases List.mem_map.mp h1 with ⟨sline, _, rfl⟩
      rfl
    · rcases loopRun_mem intr fuel e h2 with rfl | rfl
      · rfl
      · rfl

/-- Witness for C10 at a concrete environment and run length. -/
theorem c10_witness :
    Effect.print ("Queue: " ++ queueDirOf envEx) ∈ (mainRun envEx none 2).2 :=
  (c10_frame_no_fs envEx none 2).1

/-- C6: `transition(task_id, from_state, to_state, owner)` is an atomic
compare-and-move: it returns false (rather than raising) exactly when
`from_state` no longer matches the task's current state, a false return
leaves the store unchanged, and a true return fully moves the task to
`to_state` while touching no other task. -/
theorem c6_transition_atomic (s : Store) (id : String) (f t : TaskState)
    (o : Option String) :
    ((transition s id f t o).1 = false ↔ stateOf s id ≠ some f) ∧
    ((transition s id f t o).1 = false → (transition s id f t o).2 = s) ∧
    ((transition s id f t o).1 = true →
      stateOf (transition s id f t o).2 id = some t ∧
      ∀ x, x ≠ id → (transition s id f t o).2 x = s x) := by
  refine ⟨⟨?_, ?_⟩, ?_, ?_⟩
  · intro hfalse hmatch
    rw [transition_fst_of_match s id f t o hmatch] at hfalse
    simp at hfalse
  · intro hne
    rw [transition_eq_of_not_match s id f t o hne]
  · intro hfalse
    by_cases hm : stateOf s id = some f
    · rw [transition_fst_of_match s id f t o hm] at hfalse
      simp at hfalse
    · rw [transition_eq_of_not_match s id f t o hm]
  · intro htrue
    exact ⟨transition_snd_self s id f t o htrue,
      fun x hx => transition_frame s id f t o x hx⟩

/-- Witness for C6: on a store holding pending task `t1`, the claiming
move succeeds and fully applies, and a mismatched move leaves the store
untouched. -/
theorem c6_witness :
    stateOf (transition storePendingEx "t1" TaskState.pending
      TaskState.claimed (some "w1")).2 "t1" = some TaskState.claimed ∧
    (transition storePendingEx "t1" TaskState.claimed TaskState.running
      (some "w1")).2 = storePendingEx :=
  ⟨((c6_transition_atomic storePendingEx "t1" TaskState.pending
      TaskState.claimed (some "w1")).2.2 (by decide)).1,
   (c6_transition_atomic storePendingEx "t1" TaskState.claimed
      TaskState.running (some "w1")).2.1 (by decide)⟩

/-- C7: when two workers race to claim the same pending task, the
serialization forced by the store's atomic compare-and-move lets exactly
one `transition(pending → claimed)` succeed: the first attempt wins and
the second returns false. -/
theorem c7_single_claimer (s : Store) (id w1 w2 : String)
    (h : stateOf s id = some TaskState.pending) :
    (transition s id TaskState.pending TaskState.claimed (some w1)).1
      = true ∧
    (transition
      (transition s id TaskState.pending TaskState.claimed (some w1)).2
      id TaskState.pending TaskState.claimed (some w2)).1 = false := by
  have h1 : (transition s id TaskState.pending TaskState.claimed
      (some w1)).1 = true :=
    transition_fst_of_match s id _ _ _ h
  refine ⟨h1, ?_⟩
  have h2 : stateOf (transition s id TaskState.pending TaskState.claimed
      (some w1)).2 id = some TaskState.claimed :=
    transition_snd_self s id _ _ _ h1
  have hne : stateOf (transition s id TaskState.pending TaskState.claimed
      (some w1)).2 id ≠ some TaskState.pending := by
    rw [h2]; simp
  rw [transition_eq_of_not_match _ id _ _ (some w2) hne]

/-- Witness for C7 on a concrete store with pending task `t1` and
workers `w1`, `w2`. -/
theorem c7_witness :
    stateOf storePendingEx "t1" = some TaskState.pending ∧
    ((transition storePendingEx "t1" TaskState.pending TaskState.claimed
        (some "w1")).1 = true ∧
     (transition
        (transition storePendingEx "t1" TaskState.pending TaskState.claimed
          (some "w1")).2
        "t1" TaskState.pending TaskState.claimed (some "w2")).1 = false) :=
  ⟨by decide, c7_single_claimer storePendingEx "t1" "w1" "w2" (by decide)⟩

/-- C8: for every fingerprint and successful Result, `record(fp, R)`
followed by `lookup(fp)` returns a Result equal to R. -/
theorem c8_memo_roundtrip (m : MemoIndex) (fp : String) (r : TaskResult)
    (_hr : r.outcome = TaskOutcome.success) :
    memoLookup (memoRecord m fp r) fp = some r := by
  unfold memoLookup memoRecord
  simp

/-- Witness for C8 on the empty index, fingerprint `f1` and a concrete
successful result. -/
theorem c8_witness :
    resultEx.outcome = TaskOutcome.success ∧
    memoLookup (memoRecord memoEmptyEx "f1" resultEx) "f1" = some resultEx :=
  ⟨by decide, c8_memo_roundtrip memoEmptyEx "f1" resultEx (by decide)⟩

/-- C2 counterexample: with `REPO_ROOT=/custom/root` set and `E3_REPO`
unset, the program resolves its root to `~/.e3`, not `/custom/root`: the
variable the code reads is `E3_REPO`, not `REPO_ROOT`. -/
theorem c2_counterexample :
    envGet envRepoRootEx "REPO_ROOT" = some "/custom/root" ∧
    e3RepoOf envRepoRootEx = "/home/user/.e3" ∧
    e3RepoOf envRepoRootEx ≠ "/custom/root" := by
  refine ⟨by decide, by decide, by decide⟩

/-- C2 amended: the program resolves its root path from the environment
variable `E3_REPO` (not `REPO_ROOT`), and when it is unset defaults to
the hidden directory `.e3` under the user's home. -/
theorem c2_env_resolution (env : OsEnv) (v : String) :
    (envGet env "E3_REPO" = some v → e3RepoOf env = v) ∧
    (envGet env "E3_REPO" = none → e3RepoOf env = env.home ++ "/.e3") := by
  constructor
  · intro h
    unfold e3RepoOf
    rw [h]
    rfl
  · intro h
    unfold e3RepoOf
    rw [h]
    rfl

/-- Witness for C2 (amended) at concrete environments: one with
`E3_REPO` set, one with it unset. -/
theorem c2_witness :
    envGet envE3RepoEx "E3_REPO" = some "/srv/e3" ∧
    e3RepoOf envE3RepoEx = "/srv/e3" ∧
    envGet envEx "E3_REPO" = none ∧
    e3RepoOf envEx = envEx.home ++ "/.e3" :=
  ⟨by decide,
   (c2_env_resolution envE3RepoEx "/srv/e3").1 (by decide),
   by decide,
   (c2_env_resolution envEx "").2 (by decide)⟩

/-- C3: the CLI is a single long-running command with no subcommands (the
argument vector is never consulted), and a keyboard interrupt makes it
exit with code 0.  Store initialization is absent from the source; in the
designed runner modelled from the spec, an unrecoverable store
initialization failure exits non-zero while a run ending in graceful
shutdown exits 0. -/
theorem c3_cli_exit_codes (argv argv2 : List String) (env : OsEnv)
    (intr : Option Nat) (fuel i : Nat) (detail : String) :
    cliRun argv env intr fuel = cliRun argv2 env intr fuel ∧
    (cliRun argv env (some i) fuel).1 =
      (if i < fuel then RunOutcome.exited 0 else RunOutcome.running) ∧
    designedRunnerExit (StoreInit.storeUnavailable detail) = 1 ∧
    designedRunnerExit StoreInit.ok = 0 := by
  refine ⟨rfl, ?_, rfl, rfl⟩
  show (loopRun (some i) fuel).1 = _
  rw [loopRun_some_eq]
  by_cases h : i < fuel <;> simp [h]

/-- Witness for C3 at concrete arguments and an interrupt in range. -/
theorem c3_witness :
    cliRun ["spurious"] envEx none 1 = cliRun [] envEx none 1 ∧
    (cliRun [] envEx (some 0) 1).1 =
      (if 0 < 1 then RunOutcome.exited 0 else RunOutcome.running) :=
  ⟨(c3_cli_exit_codes ["spurious"] [] envEx none 1 0 "disk full").1,
   (c3_cli_exit_codes [] [] envEx none 1 0 "disk full").2.1⟩

/-- Every effect of `main` is a print of some line or a one-second
sleep. -/
theorem mainRun_mem (env : OsEnv) (intr : Option Nat) (fuel : Nat) :
    ∀ e ∈ (mainRun env intr fuel).2,
      (∃ sline, e = Effect.print sline) ∨ e = Effect.sleep 1 := by
  intro e he
  rw [mainRun_snd] at he
  rcases List.mem_append.mp he with h1 | h2
  · rcases List.mem_map.mp h1 with ⟨sline, _, rfl⟩
    exact Or.inl ⟨sline, rfl⟩
  · rcases loopRun_mem intr fuel e h2 with rfl | rfl
    · exact Or.inr rfl
    · exact Or.inl ⟨shutdownMsg, rfl⟩

/-- `main` performs no filesystem operation. -/
theorem mainRun_all_not_fs (env : OsEnv) (intr : Option Nat) (fuel : Nat) :
    (mainRun env intr fuel).2.all (fun e => !(e.isFsOp)) = true := by
  rw [List.all_eq_true]
  intro e he
  rcases mainRun_mem env intr fuel e he with ⟨sline, rfl⟩ | rfl
  · rfl
  · rfl

/-- C4 counterexample: the only path the program derives from its root is
`root/queue/python`, which is not the `root/pending/<task_id>` partition,
and a concrete run of `main` performs no filesystem operation at any
location. -/
theorem c4_counterexample :
    queueDirOf envE3RepoEx = "/srv/e3/queue/python" ∧
    pendingPath "/srv/e3" "t1" = "/srv/e3/pending/t1" ∧
    queueDirOf envE3RepoEx ≠ pendingPath "/srv/e3" "t1" ∧
    (mainRun envE3RepoEx none 2).2.all (fun e => !(e.isFsOp)) = true := by
  refine ⟨by decide, by decide, by decide, by decide⟩

/-- C4 amended: the designed task store layout, modelled from the spec,
places a pending task at `root/pending/<task_id>` with sibling partitions
`claimed`, `completed`, `failed` and memo entries at
`root/memo/<fingerprint>`; the program itself computes only the queue
path `root/queue/python` and performs no filesystem operation. -/
theorem c4_layout (root id fp : String) (env : OsEnv) (intr : Option Nat)
    (fuel : Nat) :
    pendingPath root id = root ++ "/pending/" ++ id ∧
    claimedPath root id = root ++ "/claimed/" ++ id ∧
    completedPath root id = root ++ "/completed/" ++ id ∧
    failedPath root id = root ++ "/failed/" ++ id ∧
    memoPath root fp = root ++ "/memo/" ++ fp ∧
    queueDirOf env = e3RepoOf env ++ "/queue/python" ∧
    (mainRun env intr fuel).2.all (fun e => !(e.isFsOp)) = true :=
  ⟨rfl, rfl, rfl, rfl, rfl, rfl, mainRun_all_not_fs env intr fuel⟩

/-- C5 counterexample: the stale-claim rollback — an operation of the
system the spec itself prescribes — moves task `t1` from `claimed` back
to `pending`, an earlier state in the lifecycle order, so task states are
not monotone under every operation of the system. -/
theorem c5_counterexample :
    stateOf storeClaimedEx "t1" = some TaskState.claimed ∧
    stateOf (applyOp (StoreOp.staleRollback "t1") storeClaimedEx).2 "t1" =
      some TaskState.pending ∧
    rank TaskState.pending < rank TaskState.claimed := by
  refine ⟨by decide, by decide, by decide⟩

/-- C5 amended: every state change an operation effects follows an edge
of `pending → claimed → running → {completed|failed}` or is the single
backward edge `claimed → pending` taken by stale-claim rollback; in
particular a task in a terminal state never changes state again. -/
theorem c5_monotone_except_rollback (op : StoreOp) (s : Store)
    (id : String) :
    (∀ t, stateOf s id = some t → 3 ≤ rank t →
      stateOf (applyOp op s).2 id = some t) ∧
    (stateOf (applyOp op s).2 id ≠ stateOf s id →
      edgeAllowed (stateOf s id) (stateOf (applyOp op s).2 id) = true) ∧
    (∀ a b, edgeAllowed (some a) (some b) = true →
      rank a < rank b ∨ (a = TaskState.claimed ∧ b = TaskState.pending)) := by
  refine ⟨?_, ?_, ?_⟩
  · intro t' hstate hrank
    by_cases hch : stateOf (applyOp op s).2 id = stateOf s id
    · rw [hch, hstate]
    · exfalso
      cases op with
      | submitNew tid =>
        simp only [applyOp] at hch
        obtain ⟨-, hnone, -⟩ := submitTask_changes s tid id hch
        rw [hstate] at hnone
        cases hnone
      | claim tid w =>
        simp only [applyOp] at hch
        obtain ⟨-, hfrom, -⟩ := transition_changes s tid _ _ _ id hch
        rw [hstate] at hfrom
        have ht : t' = TaskState.pending := by injection hfrom
        subst ht
        exact absurd hrank (by decide)
      | startRunning tid w =>
        simp only [applyOp] at hch
        obtain ⟨-, hfrom, -⟩ := transition_changes s tid _ _ _ id hch
        rw [hstate] at hfrom
        have ht : t' = TaskState.claimed := by injection hfrom
        subst ht
        exact absurd hrank (by decide)
      | recordCompleted tid =>
        simp only [applyOp] at hch
        obtain ⟨-, hfrom, -⟩ := transition_changes s tid _ _ _ id hch
        rw [hstate] at hfrom
        have ht : t' = TaskState.running := by injection hfrom
        subst ht
        exact absurd hrank (by decide)
      | recordFailed tid =>
        simp only [applyOp] at hch
        obtain ⟨-, hfrom, -⟩ := transition_changes s tid _ _ _ id hch
        rw [hstate] at hfrom
        have ht : t' = TaskState.running := by injection hfrom
        subst ht
        exact absurd hrank (by decide)
      | staleRollback tid =>
        simp only [applyOp] at hch
        obtain ⟨-, hfrom, -⟩ := transition_changes s tid _ _ _ id hch
        rw [hstate] at hfrom
        have ht : t' = TaskState.claimed := by injection hfrom
        subst ht
        exact absurd hrank (by decide)
  · intro hch
    cases op with
    | submitNew tid =>
      simp only [applyOp] at hch ⊢
      obtain ⟨-, hnone, hnew⟩ := submitTask_changes s tid id hch
      rw [hnone, hnew]
      rfl
    | claim tid w =>
      simp only [applyOp] at hch ⊢
      obtain ⟨-, hfrom, hto⟩ := transition_changes s tid _ _ _ id hch
      rw [hfrom, hto]
      rfl
    | startRunning tid w =>
      simp only [applyOp] at hch ⊢
      obtain ⟨-, hfrom, hto⟩ := transition_changes s tid _ _ _ id hch
      rw [hfrom, hto]
      rfl
    | recordCompleted tid =>
      simp only [applyOp] at hch ⊢
      obtain ⟨-, hfrom, hto⟩ := transition_changes s tid _ _ _ id hch
      rw [hfrom, hto]
      rfl
    | recordFailed tid =>
      simp only [applyOp] at hch ⊢
      obtain ⟨-, hfrom, hto⟩ := transition_changes s tid _ _ _ id hch
      rw [hfrom, hto]
      rfl
    | staleRollback tid =>
      simp only [applyOp] at hch ⊢
      obtain ⟨-, hfrom, hto⟩ := transition_changes s tid _ _ _ id hch
      rw [hfrom, hto]
      rfl
  · intro a b
    cases a <;> cases b <;> decide

/-- Witness for C5 (amended): the concrete claim of pending task `t1`
changes its state along an allowed edge. -/
theorem c5_witness :
    edgeAllowed (stateOf storePendingEx "t1")
      (stateOf (applyOp (StoreOp.claim "t1" "w1") storePendingEx).2 "t1")
      = true :=
  (c5_monotone_except_rollback (StoreOp.claim "t1" "w1") storePendingEx
    "t1").2.1 (by decide)

end E3
